import Mathlib

/-!
Verification of the LLPC front-end utility module `llpcSpirvLowerUtil.cpp`.

The development shallowly embeds the data the three utilities operate on
(LLVM modules, functions, metadata attachments, constant integers, and the
composite type system) and the four functions of the source file:
`getEntryPoint`, `getShaderStageFromModule`, `setShaderStageToModule` and
`appendZeroIndexToMatchTypes`.  Assertion failures and the
`llvm_unreachable` branch are modelled as the `none` outcome of an
`Option`-valued result; a normal return is `some`.  In-place mutation of a
module through a pointer is modelled by returning the updated module.
-/

namespace Llpc

/-- Linkage kinds of LLVM global values, mirroring the
`GlobalValue::LinkageTypes` enumeration.  Only `externalLinkage` is
inspected by the code under verification; the remaining constructors keep
the type faithful to the enumeration being non-boolean. -/
inductive Linkage where
  | externalLinkage
  | availableExternallyLinkage
  | linkOnceAnyLinkage
  | linkOnceODRLinkage
  | weakAnyLinkage
  | weakODRLinkage
  | appendingLinkage
  | internalLinkage
  | privateLinkage
  | externalWeakLinkage
  | commonLinkage
  deriving DecidableEq, Repr

/-- A constant integer: a bit width together with its numeric value,
read back through `getZExtValue` as the zero-extended natural number. -/
structure ConstantInt where
  width : Nat
  value : Nat
  deriving DecidableEq, Repr

/-- The constructor facility `ConstantInt::get(ty, v)`: the stored value is
reduced modulo two to the width, as LLVM truncates the supplied integer to
the type width. -/
def ConstantInt.get (width : Nat) (v : Nat) : ConstantInt :=
  { width := width, value := v % 2 ^ width }

/-- The accessor `ConstantInt::getZExtValue`. -/
def ConstantInt.getZExtValue (c : ConstantInt) : Nat :=
  c.value

/-- A metadata operand: either a wrapped constant integer
(`ConstantAsMetadata`) or some other kind of metadata, which
`mdconst::dyn_extract<ConstantInt>` rejects. -/
inductive Metadata where
  | constantAsMetadata (c : ConstantInt)
  | other (tag : Nat)
  deriving DecidableEq, Repr

/-- A metadata node: an ordered list of metadata operands. -/
structure MDNode where
  operands : List Metadata
  deriving DecidableEq, Repr

/-- The accessor `MDNode::getOperand(i)`; `none` models the out-of-bounds
assertion inside LLVM. -/
def MDNode.getOperand (node : MDNode) (i : Nat) : Option Metadata :=
  node.operands.get? i

/-- The extraction `mdconst::dyn_extract<ConstantInt>`: succeeds exactly on
a wrapped constant integer.  In the source a failed extraction yields a
null pointer that is immediately dereferenced; the caller below therefore
maps `none` to the fault outcome. -/
def mdconstDynExtractConstantInt : Metadata → Option ConstantInt
  | Metadata.constantAsMetadata c => some c
  | _ => none

/-- An LLVM function, restricted to the fields the utilities inspect: name,
whether the body is absent (`Function::empty()`), linkage, and the named
metadata attachments. -/
structure Function where
  name : String
  empty : Bool
  linkage : Linkage
  metadata : List (String × MDNode)
  deriving DecidableEq, Repr

/-- The accessor `Function::getMetadata(kind)`: the attachment stored under
the kind, if any. -/
def Function.getMetadata (func : Function) (kind : String) : Option MDNode :=
  (func.metadata.find? (fun p => p.1 == kind)).map Prod.snd

/-- The mutator `Function::setMetadata(kind, node)`: every attachment under
the kind is removed and the new attachment is inserted, matching the
erase-then-insert behaviour of the LLVM metadata attachment list. -/
def Function.setMetadata (func : Function) (kind : String) (node : MDNode) : Function :=
  { func with metadata := func.metadata.filter (fun p => !(p.1 == kind)) ++ [(kind, node)] }

/-- An LLVM module, restricted to its ordered list of functions. -/
structure Module where
  functions : List Function
  deriving DecidableEq, Repr

/-- The loop condition of `getEntryPoint`: the function has a body and
external linkage. -/
def isEntryCandidate (func : Function) : Bool :=
  !func.empty && func.linkage == Linkage.externalLinkage

/-- The entry-point locator of `llpcSpirvLowerUtil.cpp`: scan the module
functions in stored order and return the first with a body and external
linkage.  `none` models the `assert(entryPoint)` firing when no function
qualifies. -/
def getEntryPoint (module : Module) : Option Function :=
  module.functions.find? isEntryCandidate

/-- Application of a mutation through the pointer returned by
`getEntryPoint`: the first function satisfying `isEntryCandidate` is
replaced by its image under the mutation, every other function is kept. -/
def updateEntryPoint (funcs : List Function) (g : Function → Function) : List Function :=
  match funcs with
  | [] => []
  | func :: rest =>
    if isEntryCandidate func then g func :: rest
    else func :: updateEntryPoint rest g

/-- Modelled from the spec: the shader-stage enumeration is owned by an
external module (`llpcUtil.h`, not part of the sources under
verification).  The spec fixes a closed set of variants - vertex,
tessellation control and evaluation, geometry, fragment, compute, the
ray-tracing stages, task, mesh - plus an explicit invalid sentinel. -/
inductive ShaderStage where
  | task
  | vertex
  | tessControl
  | tessEval
  | geometry
  | mesh
  | fragment
  | compute
  | rayTracingRayGen
  | rayTracingIntersect
  | rayTracingAnyHit
  | rayTracingClosestHit
  | rayTracingMiss
  | rayTracingCallable
  | invalid
  deriving DecidableEq, Repr

/-- The invalid-stage sentinel `ShaderStageInvalid`. -/
def ShaderStageInvalid : ShaderStage :=
  ShaderStage.invalid

/-- Modelled from the spec: the well-known metadata key
`gSPIRVMD::ExecutionModel` (defined in `SPIRVInternal.h`, not part of the
sources under verification) under which the SPIR-V reader and these
utilities store the execution model. -/
def gSPIRVMD.ExecutionModel : String :=
  "ExecutionModel"

/-- The stage-tag reader `getShaderStageFromModule`.  The external
conversion `convertToShaderStage` is a parameter, as its definition lives
outside the sources under verification.  The result pairs the returned
stage with the module after the call, so that the absence of mutation is a
provable statement; `none` models the two faults: the entry-point
assertion, and the null dereference when operand 0 is missing or is not a
constant integer. -/
def getShaderStageFromModule (convertToShaderStage : Nat → ShaderStage) (module : Module) :
    Option (ShaderStage × Module) :=
  match getEntryPoint module with
  | none => none
  | some func =>
    match func.getMetadata gSPIRVMD.ExecutionModel with
    | none => some (ShaderStageInvalid, module)
    | some execModelNode =>
      match execModelNode.getOperand 0 with
      | none => none
      | some op =>
        match mdconstDynExtractConstantInt op with
        | none => none
        | some c => some (convertToShaderStage c.getZExtValue, module)

/-- The stage-tag writer `setShaderStageToModule`.  The external conversion
`convertToExecModel` is a parameter.  The returned module has the metadata
node attached on the entry function; `none` models the entry-point
assertion firing. -/
def setShaderStageToModule (convertToExecModel : ShaderStage → Nat) (module : Module)
    (shaderStage : ShaderStage) : Option Module :=
  match getEntryPoint module with
  | none => none
  | some _ =>
    let execModel := convertToExecModel shaderStage
    let execModelMetaNode : MDNode :=
      { operands := [Metadata.constantAsMetadata (ConstantInt.get 32 execModel)] }
    some { module with
           functions := updateEntryPoint module.functions
             (fun func => func.setMetadata gSPIRVMD.ExecutionModel execModelMetaNode) }

/-- An LLVM type, restricted to the kinds `appendZeroIndexToMatchTypes`
dispatches on: the three composite kinds and some non-composite leaves. -/
inductive Ty where
  | int (width : Nat)
  | float
  | pointer
  | struct (members : List Ty)
  | array (size : Nat) (elem : Ty)
  | vector (size : Nat) (elem : Ty)

mutual

/-- Structural equality test on types.  LLVM uniques array, vector and
literal struct types, so the pointer comparison in the source coincides
with structural equality. -/
def Ty.beq : Ty → Ty → Bool
  | Ty.int w1, Ty.int w2 => w1 == w2
  | Ty.float, Ty.float => true
  | Ty.pointer, Ty.pointer => true
  | Ty.struct ms1, Ty.struct ms2 => Ty.beqMembers ms1 ms2
  | Ty.array n1 e1, Ty.array n2 e2 => n1 == n2 && Ty.beq e1 e2
  | Ty.vector n1 e1, Ty.vector n2 e2 => n1 == n2 && Ty.beq e1 e2
  | _, _ => false

/-- Structural equality test on struct member lists. -/
def Ty.beqMembers : List Ty → List Ty → Bool
  | [], [] => true
  | t1 :: ts1, t2 :: ts2 => Ty.beq t1 t2 && Ty.beqMembers ts1 ts2
  | _, _ => false

end

/-- The predicate `Type::isStructTy`. -/
def Ty.isStructTy : Ty → Bool
  | Ty.struct _ => true
  | _ => false

/-- The predicate `Type::isArrayTy`. -/
def Ty.isArrayTy : Ty → Bool
  | Ty.array _ _ => true
  | _ => false

/-- The predicate `Type::isVectorTy`. -/
def Ty.isVectorTy : Ty → Bool
  | Ty.vector _ _ => true
  | _ => false

/-- An LLVM value, restricted to what the index-operand list can hold: a
constant integer or some other value. -/
inductive Value where
  | constInt (c : ConstantInt)
  | other (tag : Nat)
  deriving DecidableEq, Repr

/-- The LGC builder, of which only the constant facility is used. -/
structure Builder where
  dummyCtx : Unit
  deriving DecidableEq, Repr

/-- The builder facility `Builder::getInt32(v)`: the 32-bit constant
integer with the given value. -/
def Builder.getInt32 (_ : Builder) (v : Nat) : Value :=
  Value.constInt (ConstantInt.get 32 v)

/-- The index-padding synthesizer `appendZeroIndexToMatchTypes`.  The while
loop of the source becomes recursion on the cursor type `packType`; each
iteration that finds the cursor different from `typeToMatch` appends the
zero constant and descends into the first member (struct), or the element
type (array, vector).  `none` models the `llvm_unreachable` fault on a
non-composite cursor, and the LLVM in-bounds assertion inside
`getStructElementType(0)` on a memberless struct. -/
def appendZeroIndexToMatchTypes (builder : Builder) (indexOperands : List Value)
    (typeToMatch : Ty) (packType : Ty) : Option (List Value) :=
  if Ty.beq packType typeToMatch = true then
    some indexOperands
  else
    match packType with
    | Ty.struct (first :: _) =>
      appendZeroIndexToMatchTypes builder (indexOperands ++ [builder.getInt32 0]) typeToMatch first
    | Ty.array _ elemTy =>
      appendZeroIndexToMatchTypes builder (indexOperands ++ [builder.getInt32 0]) typeToMatch elemTy
    | Ty.vector _ elemTy =>
      appendZeroIndexToMatchTypes builder (indexOperands ++ [builder.getInt32 0]) typeToMatch elemTy
    | _ => none

/-- One unwrap level, as the spec describes it: a struct yields its first
member type, an array or vector yields its element type; a non-composite
type (or a memberless struct) has no unwrap step. -/
def unwrapOne : Ty → Option Ty
  | Ty.struct (first :: _) => some first
  | Ty.array _ elemTy => some elemTy
  | Ty.vector _ elemTy => some elemTy
  | _ => none

/-- Iterated unwrapping: the type reached after exactly `k` single-level
unwrap steps, when every step exists. -/
def unwrapChain : Nat → Ty → Option Ty
  | 0, t => some t
  | k + 1, t =>
    match unwrapOne t with
    | some t2 => unwrapChain k t2
    | none => none

/-- A size measure on types that strictly decreases along an unwrap step. -/
def tySize : Ty → Nat
  | Ty.struct (first :: _) => 1 + tySize first
  | Ty.array _ elemTy => 1 + tySize elemTy
  | Ty.vector _ elemTy => 1 + tySize elemTy
  | _ => 1


/-- A sample internally linked helper function with a body. -/
def sampleHelper : Function :=
  { name := "helper", empty := false, linkage := Linkage.internalLinkage, metadata := [] }

/-- A sample externally linked entry function with a body and no metadata. -/
def sampleMain : Function :=
  { name := "main", empty := false, linkage := Linkage.externalLinkage, metadata := [] }

/-- A sample externally linked declaration without a body. -/
def sampleDecl : Function :=
  { name := "decl", empty := true, linkage := Linkage.externalLinkage, metadata := [] }

/-- A sample module: an internal helper followed by the entry function. -/
def sampleModule : Module :=
  { functions := [sampleHelper, sampleMain] }

/-- The sample module after tagging the entry function with execution model 7. -/
def sampleModule2 : Module :=
  { functions := [sampleHelper,
      { name := "main", empty := false, linkage := Linkage.externalLinkage,
        metadata := [(gSPIRVMD.ExecutionModel,
          { operands := [Metadata.constantAsMetadata { width := 32, value := 7 }] })] }] }

/-- A sample entry function already tagged with execution model 4. -/
def sampleTaggedMain : Function :=
  { name := "main", empty := false, linkage := Linkage.externalLinkage,
    metadata := [(gSPIRVMD.ExecutionModel,
      { operands := [Metadata.constantAsMetadata { width := 32, value := 4 }] })] }

/-- A sample single-function module whose entry function is tagged. -/
def sampleTaggedModule : Module :=
  { functions := [sampleTaggedMain] }

/-- Soundness and completeness of the structural equality test, proved for
types and member lists together by strong induction on size. -/
theorem Ty.beq_iff_eq_aux : ∀ n : Nat,
    (∀ t1 t2 : Ty, sizeOf t1 ≤ n → (Ty.beq t1 t2 = true ↔ t1 = t2)) ∧
    (∀ l1 l2 : List Ty, sizeOf l1 ≤ n → (Ty.beqMembers l1 l2 = true ↔ l1 = l2)) := by
  intro n
  induction n using Nat.strong_induction_on with
  | _ n ih =>
    constructor
    · intro t1 t2 hsize
      cases t1 <;> cases t2
      case struct.struct ms1 ms2 =>
        have hlt : sizeOf ms1 < n := by
          have hspec : sizeOf (Ty.struct ms1) = 1 + sizeOf ms1 := by simp
          omega
        have hrec := (ih (sizeOf ms1) hlt).2 ms1 ms2 (Nat.le_refl _)
        simp [Ty.beq, hrec]
      case array.array n1 e1 n2 e2 =>
        have hlt : sizeOf e1 < n := by
          have hspec : sizeOf (Ty.array n1 e1) = 1 + sizeOf n1 + sizeOf e1 := by simp
          omega
        have hrec := (ih (sizeOf e1) hlt).1 e1 e2 (Nat.le_refl _)
        simp [Ty.beq, hrec]
      case vector.vector n1 e1 n2 e2 =>
        have hlt : sizeOf e1 < n := by
          have hspec : sizeOf (Ty.vector n1 e1) = 1 + sizeOf n1 + sizeOf e1 := by simp
          omega
        have hrec := (ih (sizeOf e1) hlt).1 e1 e2 (Nat.le_refl _)
        simp [Ty.beq, hrec]
      all_goals simp [Ty.beq]
    · intro l1 l2 hsize
      cases l1 <;> cases l2
      case cons.cons h1 t1 h2 t2 =>
        have hspec : sizeOf (h1 :: t1) = 1 + sizeOf h1 + sizeOf t1 := by simp
        have hlt1 : sizeOf h1 < n := by omega
        have hlt2 : sizeOf t1 < n := by omega
        have hrec1 := (ih (sizeOf h1) hlt1).1 h1 h2 (Nat.le_refl _)
        have hrec2 := (ih (sizeOf t1) hlt2).2 t1 t2 (Nat.le_refl _)
        simp [Ty.beqMembers, hrec1, hrec2]
      all_goals simp [Ty.beqMembers]

/-- The pointwise form of the soundness result. -/
theorem Ty.beq_iff_eq (t1 t2 : Ty) : Ty.beq t1 t2 = true ↔ t1 = t2 :=
  (Ty.beq_iff_eq_aux (sizeOf t1)).1 t1 t2 (Nat.le_refl _)

/-- Reflexivity of the structural equality test. -/
theorem Ty.beq_self (t : Ty) : Ty.beq t t = true :=
  (Ty.beq_iff_eq t t).2 rfl

/-- One unwrap step strictly shrinks the size measure. -/
theorem tySize_lt_of_unwrapOne {t u : Ty} (h : unwrapOne t = some u) :
    tySize u < tySize t := by
  cases t with
  | struct ms =>
    cases ms with
    | nil => simp [unwrapOne] at h
    | cons first rest =>
      simp [unwrapOne] at h
      subst h
      simp [tySize]
  | array n e =>
    simp [unwrapOne] at h
    subst h
    simp [tySize]
  | vector n e =>
    simp [unwrapOne] at h
    subst h
    simp [tySize]
  | int w => simp [unwrapOne] at h
  | float => simp [unwrapOne] at h
  | pointer => simp [unwrapOne] at h

/-- Unwrap chains shrink the size measure by at least their length. -/
theorem tySize_le_of_unwrapChain :
    ∀ (k : Nat) (t u : Ty), unwrapChain k t = some u → tySize u + k ≤ tySize t := by
  intro k
  induction k with
  | zero =>
    intro t u h
    simp [unwrapChain] at h
    subst h
    simp
  | succ k ih =>
    intro t u h
    rw [unwrapChain] at h
    cases hu : unwrapOne t with
    | none => rw [hu] at h; simp at h
    | some t2 =>
      rw [hu] at h
      have h1 := tySize_lt_of_unwrapOne hu
      have h2 := ih t2 u h
      omega

/-- When the target is reachable in `k` unwrap steps, the synthesizer
succeeds and appends exactly `k` zero constants. -/
theorem appendZero_of_unwrapChain (builder : Builder) (typeToMatch : Ty) :
    ∀ (k : Nat) (packType : Ty) (indexOperands : List Value),
      unwrapChain k packType = some typeToMatch →
      appendZeroIndexToMatchTypes builder indexOperands typeToMatch packType =
        some (indexOperands ++ List.replicate k (builder.getInt32 0)) := by
  intro k
  induction k with
  | zero =>
    intro packType ops h
    simp [unwrapChain] at h
    subst h
    rw [appendZeroIndexToMatchTypes.eq_def]
    simp [Ty.beq_self]
  | succ k ih =>
    intro packType ops h
    rw [unwrapChain] at h
    cases hu : unwrapOne packType with
    | none => rw [hu] at h; simp at h
    | some t2 =>
      rw [hu] at h
      have hne : packType ≠ typeToMatch := by
        intro he
        have h1 := tySize_lt_of_unwrapOne hu
        have h2 := tySize_le_of_unwrapChain k t2 typeToMatch h
        rw [he] at h1
        omega
      have hne2 : ¬(Ty.beq packType typeToMatch = true) :=
        fun hb => hne ((Ty.beq_iff_eq packType typeToMatch).1 hb)
      have hih := ih t2 (ops ++ [builder.getInt32 0]) h
      have hlist : (ops ++ [builder.getInt32 0]) ++ List.replicate k (builder.getInt32 0) =
          ops ++ List.replicate (k + 1) (builder.getInt32 0) := by
        simp [List.replicate_succ, List.append_assoc]
      cases packType with
      | struct ms =>
        cases ms with
        | nil => simp [unwrapOne] at hu
        | cons first rest =>
          simp [unwrapOne] at hu
          subst hu
          rw [appendZeroIndexToMatchTypes.eq_1, if_neg hne2]
          rw [hih, hlist]
      | array n e =>
        simp [unwrapOne] at hu
        subst hu
        rw [appendZeroIndexToMatchTypes.eq_2, if_neg hne2]
        rw [hih, hlist]
      | vector n e =>
        simp [unwrapOne] at hu
        subst hu
        rw [appendZeroIndexToMatchTypes.eq_3, if_neg hne2]
        rw [hih, hlist]
      | int w => simp [unwrapOne] at hu
      | float => simp [unwrapOne] at hu
      | pointer => simp [unwrapOne] at hu

/-- Every successful run of the synthesizer arises from an unwrap chain and
appends exactly a block of zero constants. -/
theorem appendZero_shape (builder : Builder) (typeToMatch : Ty) :
    (packType : Ty) → (indexOperands res : List Value) →
      appendZeroIndexToMatchTypes builder indexOperands typeToMatch packType = some res →
      ∃ k, unwrapChain k packType = some typeToMatch ∧
        res = indexOperands ++ List.replicate k (builder.getInt32 0)
  | Ty.int w, ops, res, h => by
    rw [appendZeroIndexToMatchTypes.eq_def] at h
    by_cases hpt : Ty.beq (Ty.int w) typeToMatch = true
    · rw [if_pos hpt] at h
      cases h
      exact ⟨0, by simp [unwrapChain, (Ty.beq_iff_eq _ _).1 hpt], by simp⟩
    · rw [if_neg hpt] at h
      simp at h
  | Ty.float, ops, res, h => by
    rw [appendZeroIndexToMatchTypes.eq_def] at h
    by_cases hpt : Ty.beq (Ty.float) typeToMatch = true
    · rw [if_pos hpt] at h
      cases h
      exact ⟨0, by simp [unwrapChain, (Ty.beq_iff_eq _ _).1 hpt], by simp⟩
    · rw [if_neg hpt] at h
      simp at h
  | Ty.pointer, ops, res, h => by
    rw [appendZeroIndexToMatchTypes.eq_def] at h
    by_cases hpt : Ty.beq (Ty.pointer) typeToMatch = true
    · rw [if_pos hpt] at h
      cases h
      exact ⟨0, by simp [unwrapChain, (Ty.beq_iff_eq _ _).1 hpt], by simp⟩
    · rw [if_neg hpt] at h
      simp at h
  | Ty.struct [], ops, res, h => by
    rw [appendZeroIndexToMatchTypes.eq_def] at h
    by_cases hpt : Ty.beq (Ty.struct []) typeToMatch = true
    · rw [if_pos hpt] at h
      cases h
      exact ⟨0, by simp [unwrapChain, (Ty.beq_iff_eq _ _).1 hpt], by simp⟩
    · rw [if_neg hpt] at h
      simp at h
  | Ty.struct (first :: rest), ops, res, h => by
    by_cases hpt : Ty.beq (Ty.struct (first :: rest)) typeToMatch = true
    · rw [appendZeroIndexToMatchTypes.eq_1, if_pos hpt] at h
      cases h
      exact ⟨0, by simp [unwrapChain, (Ty.beq_iff_eq _ _).1 hpt], by simp⟩
    · rw [appendZeroIndexToMatchTypes.eq_1, if_neg hpt] at h
      obtain ⟨k, hchain, hres⟩ :=
        appendZero_shape builder typeToMatch first (ops ++ [builder.getInt32 0]) res h
      refine ⟨k + 1, ?_, ?_⟩
      · rw [unwrapChain]
        simp [unwrapOne, hchain]
      · rw [hres]
        simp [List.replicate_succ, List.append_assoc]
  | Ty.array n e, ops, res, h => by
    by_cases hpt : Ty.beq (Ty.array n e) typeToMatch = true
    · rw [appendZeroIndexToMatchTypes.eq_2, if_pos hpt] at h
      cases h
      exact ⟨0, by simp [unwrapChain, (Ty.beq_iff_eq _ _).1 hpt], by simp⟩
    · rw [appendZeroIndexToMatchTypes.eq_2, if_neg hpt] at h
      obtain ⟨k, hchain, hres⟩ :=
        appendZero_shape builder typeToMatch e (ops ++ [builder.getInt32 0]) res h
      refine ⟨k + 1, ?_, ?_⟩
      · rw [unwrapChain]
        simp [unwrapOne, hchain]
      · rw [hres]
        simp [List.replicate_succ, List.append_assoc]
  | Ty.vector n e, ops, res, h => by
    by_cases hpt : Ty.beq (Ty.vector n e) typeToMatch = true
    · rw [appendZeroIndexToMatchTypes.eq_3, if_pos hpt] at h
      cases h
      exact ⟨0, by simp [unwrapChain, (Ty.beq_iff_eq _ _).1 hpt], by simp⟩
    · rw [appendZeroIndexToMatchTypes.eq_3, if_neg hpt] at h
      obtain ⟨k, hchain, hres⟩ :=
        appendZero_shape builder typeToMatch e (ops ++ [builder.getInt32 0]) res h
      refine ⟨k + 1, ?_, ?_⟩
      · rw [unwrapChain]
        simp [unwrapOne, hchain]
      · rw [hres]
        simp [List.replicate_succ, List.append_assoc]

/-- A find over a split list whose front contains no match returns the
split element. -/
theorem find?_append_first {α : Type} (p : α → Bool) :
    ∀ (pre : List α) (f : α) (post : List α), p f = true → (∀ g ∈ pre, p g = false) →
      (pre ++ f :: post).find? p = some f
  | [], f, post, hf, _ => by simp [List.find?_cons, hf]
  | g :: pre, f, post, hf, hpre => by
    have hg : p g = false := hpre g (by simp)
    have hrest := find?_append_first p pre f post hf (fun x hx => hpre x (by simp [hx]))
    simp [List.find?_cons, hg, hrest]

/-- Setting metadata changes neither the body nor the linkage, so the
entry-candidate test is preserved. -/
theorem isEntryCandidate_setMetadata (func : Function) (kind : String) (node : MDNode) :
    isEntryCandidate (func.setMetadata kind node) = isEntryCandidate func := by
  simp [isEntryCandidate, Function.setMetadata]

/-- Locating the entry point after mutating it: when the mutation preserves
the entry-candidate test, the located function is the mutated image of the
originally located one. -/
theorem find?_updateEntryPoint (g : Function → Function)
    (hg : ∀ f, isEntryCandidate (g f) = isEntryCandidate f) :
    ∀ funcs : List Function,
      (updateEntryPoint funcs g).find? isEntryCandidate =
        (funcs.find? isEntryCandidate).map g := by
  intro funcs
  induction funcs with
  | nil => simp [updateEntryPoint]
  | cons f rest ih =>
    cases hf : isEntryCandidate f with
    | true => simp [updateEntryPoint, hf, List.find?_cons, hg]
    | false => simp [updateEntryPoint, hf, List.find?_cons, ih]

/-- The metadata read-back law: after setting an attachment under a kind,
looking it up under that kind returns exactly the attached node. -/
theorem getMetadata_setMetadata (func : Function) (kind : String) (node : MDNode) :
    (func.setMetadata kind node).getMetadata kind = some node := by
  simp only [Function.getMetadata, Function.setMetadata]
  have hnone : ∀ l : List (String × MDNode),
      (l.filter (fun p => !(p.1 == kind))).find? (fun p => p.1 == kind) = none := by
    intro l
    induction l with
    | nil => simp
    | cons p rest ih =>
      cases hp : p.1 == kind with
      | true => simp [List.filter_cons, hp, ih]
      | false => simp [List.filter_cons, hp, List.find?_cons, ih]
  rw [List.find?_append, hnone]
  simp [List.find?_cons]

/-- Re-setting the same attachment is a no-op on the function. -/
theorem setMetadata_setMetadata (func : Function) (kind : String) (node : MDNode) :
    (func.setMetadata kind node).setMetadata kind node = func.setMetadata kind node := by
  simp only [Function.setMetadata]
  rw [List.filter_append]
  simp [List.filter_filter]

/-- Mutating the entry point twice with an idempotent, candidate-preserving
mutation equals mutating it once. -/
theorem updateEntryPoint_updateEntryPoint (g : Function → Function)
    (hg : ∀ f, isEntryCandidate (g f) = isEntryCandidate f)
    (hgg : ∀ f, g (g f) = g f) :
    ∀ funcs : List Function,
      updateEntryPoint (updateEntryPoint funcs g) g = updateEntryPoint funcs g := by
  intro funcs
  induction funcs with
  | nil => simp [updateEntryPoint]
  | cons f rest ih =>
    cases hf : isEntryCandidate f with
    | true => simp [updateEntryPoint, hf, hg, hgg]
    | false => simp [updateEntryPoint, hf, ih]

/-- Locating the entry point after attaching metadata to it: the located
function is the tagged image of the originally located one. -/
theorem getEntryPoint_setMetadata (module : Module) (func : Function) (node : MDNode)
    (hentry : getEntryPoint module = some func) :
    getEntryPoint (Module.mk (updateEntryPoint module.functions
        (fun f => f.setMetadata gSPIRVMD.ExecutionModel node))) =
      some (func.setMetadata gSPIRVMD.ExecutionModel node) := by
  show (updateEntryPoint module.functions
      (fun f => f.setMetadata gSPIRVMD.ExecutionModel node)).find? isEntryCandidate = _
  rw [find?_updateEntryPoint _
    (fun f => isEntryCandidate_setMetadata f gSPIRVMD.ExecutionModel node)]
  rw [show module.functions.find? isEntryCandidate = some func from hentry]
  rfl

/-- C1: for every module containing at least one function that both has a
body and has external linkage, getEntryPoint returns the first such
function in the stored function order: whenever the function list splits
as a candidate-free front, a qualifying function, and an arbitrary rest,
the qualifying function is returned.  In particular a module with exactly
one defined externally linked function yields that function no matter how
many internally linked or declaration-only functions surround it. -/
theorem getEntryPoint_first (module : Module) (pre post : List Function) (f : Function)
    (hsplit : module.functions = pre ++ f :: post)
    (hf : isEntryCandidate f = true)
    (hpre : ∀ g ∈ pre, isEntryCandidate g = false) :
    getEntryPoint module = some f := by
  rw [getEntryPoint, hsplit]
  exact find?_append_first isEntryCandidate pre f post hf hpre

/-- Witness for C1: the spec scenario, an internal helper followed by the
external main, locates main. -/
theorem getEntryPoint_first_witness :
    sampleModule.functions = [sampleHelper] ++ sampleMain :: [] ∧
    isEntryCandidate sampleMain = true ∧
    getEntryPoint sampleModule = some sampleMain :=
  ⟨rfl, rfl, getEntryPoint_first sampleModule [sampleHelper] [] sampleMain rfl rfl
    (by decide)⟩

/-- C2: for every target type reachable from the source type by k zero-based
first-element unwrap steps, appendZeroIndexToMatchTypes returns normally and
appends exactly k entries, so the final length is the prior length plus the
number of unwrap levels. -/
theorem appendZeroIndexToMatchTypes_unwrap_levels (builder : Builder)
    (indexOperands : List Value) (typeToMatch packType : Ty) (k : Nat)
    (hreach : unwrapChain k packType = some typeToMatch) :
    ∃ res, appendZeroIndexToMatchTypes builder indexOperands typeToMatch packType = some res ∧
      res.length = indexOperands.length + k :=
  ⟨indexOperands ++ List.replicate k (builder.getInt32 0),
    appendZero_of_unwrapChain builder typeToMatch k packType indexOperands hreach,
    by simp⟩

/-- Witness for C2: a struct whose first member is a 4-element array of the
target type is two unwrap levels away, and exactly 2 entries are appended
to an initially empty list. -/
theorem appendZeroIndexToMatchTypes_unwrap_levels_witness :
    unwrapChain 2 (Ty.struct [Ty.array 4 (Ty.int 32)]) = some (Ty.int 32) ∧
    ∃ res, appendZeroIndexToMatchTypes ⟨()⟩ [] (Ty.int 32)
        (Ty.struct [Ty.array 4 (Ty.int 32)]) = some res ∧
      res.length = ([] : List Value).length + 2 :=
  ⟨rfl, appendZeroIndexToMatchTypes_unwrap_levels ⟨()⟩ [] (Ty.int 32)
    (Ty.struct [Ty.array 4 (Ty.int 32)]) 2 rfl⟩

/-- C4: on a module whose entry function carries no ExecutionModel
metadata, getShaderStageFromModule returns the invalid-stage sentinel
normally (with the module untouched); absence of the tag is not an
error. -/
theorem getShaderStageFromModule_noMetadata (convertToShaderStage : Nat → ShaderStage)
    (module : Module) (func : Function)
    (hentry : getEntryPoint module = some func)
    (hmd : func.getMetadata gSPIRVMD.ExecutionModel = none) :
    getShaderStageFromModule convertToShaderStage module = some (ShaderStageInvalid, module) := by
  simp [getShaderStageFromModule, hentry, hmd]

/-- Witness for C4: the sample module with an untagged entry function. -/
theorem getShaderStageFromModule_noMetadata_witness :
    getEntryPoint sampleModule = some sampleMain ∧
    Function.getMetadata sampleMain gSPIRVMD.ExecutionModel = none ∧
    getShaderStageFromModule (fun _ => ShaderStage.vertex) sampleModule =
      some (ShaderStageInvalid, sampleModule) :=
  ⟨rfl, rfl, getShaderStageFromModule_noMetadata (fun _ => ShaderStage.vertex)
    sampleModule sampleMain rfl rfl⟩

/-- C5: both precondition violations end in the modelled assertion-style
termination (the `none` outcome) instead of a normal return: getEntryPoint
on a module without any defined externally linked function, and
appendZeroIndexToMatchTypes on a cursor type that is not a struct, array
or vector while still unequal to the target. -/
theorem preconditionViolations_terminate :
    (∀ module : Module, (∀ func ∈ module.functions, isEntryCandidate func = false) →
      getEntryPoint module = none) ∧
    (∀ (builder : Builder) (indexOperands : List Value) (typeToMatch cursor : Ty),
      cursor ≠ typeToMatch → cursor.isStructTy = false → cursor.isArrayTy = false →
      cursor.isVectorTy = false →
      appendZeroIndexToMatchTypes builder indexOperands typeToMatch cursor = none) := by
  constructor
  · intro module h
    rw [getEntryPoint, List.find?_eq_none]
    intro x hx
    simp [h x hx]
  · intro builder ops typeToMatch cursor hne hs ha hv
    have hne2 : ¬(Ty.beq cursor typeToMatch = true) :=
      fun hb => hne ((Ty.beq_iff_eq cursor typeToMatch).1 hb)
    cases cursor with
    | struct ms => simp [Ty.isStructTy] at hs
    | array n e => simp [Ty.isArrayTy] at ha
    | vector n e => simp [Ty.isVectorTy] at hv
    | int w => rw [appendZeroIndexToMatchTypes.eq_def, if_neg hne2]
    | float => rw [appendZeroIndexToMatchTypes.eq_def, if_neg hne2]
    | pointer => rw [appendZeroIndexToMatchTypes.eq_def, if_neg hne2]

/-- Witness for C5: a module holding only a bodyless declaration faults in
getEntryPoint, and a float cursor unequal to an i32 target faults in
appendZeroIndexToMatchTypes. -/
theorem preconditionViolations_terminate_witness :
    getEntryPoint { functions := [sampleDecl] } = none ∧
    appendZeroIndexToMatchTypes ⟨()⟩ [] (Ty.int 32) Ty.float = none :=
  ⟨preconditionViolations_terminate.1 { functions := [sampleDecl] } (by decide),
   preconditionViolations_terminate.2 ⟨()⟩ [] (Ty.int 32) Ty.float
     (fun h => Ty.noConfusion h) rfl rfl rfl⟩

/-- C6: frame property of appendZeroIndexToMatchTypes: the result on any
prior index-operand list is exactly the prior list followed by the block
computed from an empty list, so prior entries are preserved unchanged, in
order and position, never inspected, and the routine only appends. -/
theorem appendZeroIndexToMatchTypes_frame (builder : Builder) (indexOperands : List Value)
    (typeToMatch packType : Ty) :
    appendZeroIndexToMatchTypes builder indexOperands typeToMatch packType =
      Option.map (fun appended => indexOperands ++ appended)
        (appendZeroIndexToMatchTypes builder [] typeToMatch packType) := by
  cases h0 : appendZeroIndexToMatchTypes builder [] typeToMatch packType with
  | none =>
    cases h1 : appendZeroIndexToMatchTypes builder indexOperands typeToMatch packType with
    | none => rfl
    | some res =>
      obtain ⟨k, hchain, -⟩ := appendZero_shape builder typeToMatch packType indexOperands res h1
      have h2 := appendZero_of_unwrapChain builder typeToMatch k packType [] hchain
      rw [h0] at h2
      exact absurd h2 (by simp)
  | some res0 =>
    obtain ⟨k, hchain, hres0⟩ := appendZero_shape builder typeToMatch packType [] res0 h0
    have h2 := appendZero_of_unwrapChain builder typeToMatch k packType indexOperands hchain
    rw [h2, hres0]
    simp

/-- C8: every entry appended by appendZeroIndexToMatchTypes is the 32-bit
integer constant 0 produced by the builder facility; no appended entry has
another value or width. -/
theorem appendZeroIndexToMatchTypes_appendsOnlyZero (builder : Builder)
    (indexOperands : List Value) (typeToMatch packType : Ty) (res : List Value)
    (h : appendZeroIndexToMatchTypes builder indexOperands typeToMatch packType = some res) :
    ∃ appended, res = indexOperands ++ appended ∧
      ∀ v ∈ appended, v = Value.constInt { width := 32, value := 0 } := by
  obtain ⟨k, -, hres⟩ := appendZero_shape builder typeToMatch packType indexOperands res h
  refine ⟨List.replicate k (builder.getInt32 0), hres, ?_⟩
  intro v hv
  rw [List.eq_of_mem_replicate hv]
  simp [Builder.getInt32, ConstantInt.get]

/-- Witness for C8: unpacking a 4-element array of i32 down to i32 past a
pre-existing foreign entry appends the single zero constant. -/
theorem appendZeroIndexToMatchTypes_appendsOnlyZero_witness :
    appendZeroIndexToMatchTypes ⟨()⟩ [Value.other 5] (Ty.int 32) (Ty.array 4 (Ty.int 32)) =
      some [Value.other 5, Value.constInt { width := 32, value := 0 }] ∧
    ∃ appended, [Value.other 5, Value.constInt { width := 32, value := 0 }] =
        [Value.other 5] ++ appended ∧
      ∀ v ∈ appended, v = Value.constInt { width := 32, value := 0 } :=
  ⟨rfl, appendZeroIndexToMatchTypes_appendsOnlyZero ⟨()⟩ [Value.other 5] (Ty.int 32)
    (Ty.array 4 (Ty.int 32)) [Value.other 5, Value.constInt { width := 32, value := 0 }] rfl⟩

/-- C9: getShaderStageFromModule is read-only: whenever it returns, the
module observed after the call is exactly the module passed in, so the
function list and every metadata attachment are unchanged. -/
theorem getShaderStageFromModule_readOnly (convertToShaderStage : Nat → ShaderStage)
    (module module2 : Module) (stage : ShaderStage)
    (h : getShaderStageFromModule convertToShaderStage module = some (stage, module2)) :
    module2 = module := by
  cases hentry : getEntryPoint module with
  | none => simp [getShaderStageFromModule, hentry] at h
  | some func =>
    cases hmd : func.getMetadata gSPIRVMD.ExecutionModel with
    | none =>
      simp [getShaderStageFromModule, hentry, hmd] at h
      exact h.2.symm
    | some node =>
      cases hop : node.getOperand 0 with
      | none => simp [getShaderStageFromModule, hentry, hmd, hop] at h
      | some op =>
        cases hex : mdconstDynExtractConstantInt op with
        | none => simp [getShaderStageFromModule, hentry, hmd, hop, hex] at h
        | some c =>
          simp [getShaderStageFromModule, hentry, hmd, hop, hex] at h
          exact h.2.symm

/-- Witness for C9: reading the tagged sample module returns it
unchanged alongside the decoded stage. -/
theorem getShaderStageFromModule_readOnly_witness :
    getShaderStageFromModule (fun _ => ShaderStage.fragment) sampleTaggedModule =
      some (ShaderStage.fragment, sampleTaggedModule) ∧
    sampleTaggedModule = sampleTaggedModule :=
  ⟨rfl, getShaderStageFromModule_readOnly (fun _ => ShaderStage.fragment)
    sampleTaggedModule sampleTaggedModule ShaderStage.fragment rfl⟩

/-- C10: under the precondition that any attached ExecutionModel node has
an integer constant as operand 0, the unchecked decode of
getShaderStageFromModule cannot fault: the call returns normally, and when
the tag is present the result is the external conversion applied to the
operand value read back zero-extended. -/
theorem getShaderStageFromModule_decode_total (convertToShaderStage : Nat → ShaderStage)
    (module : Module) (func : Function)
    (hentry : getEntryPoint module = some func)
    (hwf : ∀ node, func.getMetadata gSPIRVMD.ExecutionModel = some node →
      ∃ c, node.getOperand 0 = some (Metadata.constantAsMetadata c)) :
    ∃ stage : ShaderStage,
      getShaderStageFromModule convertToShaderStage module = some (stage, module) ∧
      ∀ node c, func.getMetadata gSPIRVMD.ExecutionModel = some node →
        node.getOperand 0 = some (Metadata.constantAsMetadata c) →
        stage = convertToShaderStage c.getZExtValue := by
  cases hmd : func.getMetadata gSPIRVMD.ExecutionModel with
  | none =>
    refine ⟨ShaderStageInvalid, by simp [getShaderStageFromModule, hentry, hmd], ?_⟩
    intro node c hnode hop
    exact Option.noConfusion hnode
  | some node =>
    obtain ⟨c, hop⟩ := hwf node hmd
    refine ⟨convertToShaderStage c.getZExtValue, ?_, ?_⟩
    · simp [getShaderStageFromModule, hentry, hmd, hop, mdconstDynExtractConstantInt]
    · intro node2 c2 hnode2 hop2
      injection hnode2 with hn
      subst hn
      rw [hop] at hop2
      injection hop2 with ho
      injection ho with hc
      rw [hc]

/-- Witness for C10: the tagged sample module decodes its stored execution
model 4 through the supplied conversion. -/
theorem getShaderStageFromModule_decode_total_witness :
    ∃ stage : ShaderStage,
      getShaderStageFromModule (fun _ => ShaderStage.fragment) sampleTaggedModule =
        some (stage, sampleTaggedModule) ∧
      ∀ node c, Function.getMetadata sampleTaggedMain gSPIRVMD.ExecutionModel = some node →
        MDNode.getOperand node 0 = some (Metadata.constantAsMetadata c) →
        stage = (fun _ => ShaderStage.fragment : Nat → ShaderStage) c.getZExtValue :=
  getShaderStageFromModule_decode_total (fun _ => ShaderStage.fragment)
    sampleTaggedModule sampleTaggedMain rfl
    (by
      intro node hnode
      have hmd : Function.getMetadata sampleTaggedMain gSPIRVMD.ExecutionModel =
          some { operands := [Metadata.constantAsMetadata { width := 32, value := 4 }] } := rfl
      rw [hmd] at hnode
      injection hnode with hn
      subst hn
      exact ⟨{ width := 32, value := 4 }, rfl⟩)

/-- C3: round trip of the stage tag: writing any valid stage with
setShaderStageToModule and reading it back with getShaderStageFromModule
returns exactly that stage, under the hypothesis that the external
conversion functions are mutual inverses on valid stages (and that the
execution-model code fits in 32 bits, as the tag is stored as an i32). -/
theorem setThenGet_roundTrip (convertToShaderStage : Nat → ShaderStage)
    (convertToExecModel : ShaderStage → Nat) (module module2 : Module) (stage : ShaderStage)
    (hvalid : stage ≠ ShaderStage.invalid)
    (hinv : convertToShaderStage (convertToExecModel stage) = stage)
    (hbound : convertToExecModel stage < 2 ^ 32)
    (hset : setShaderStageToModule convertToExecModel module stage = some module2) :
    getShaderStageFromModule convertToShaderStage module2 = some (stage, module2) := by
  cases hentry : getEntryPoint module with
  | none => simp [setShaderStageToModule, hentry] at hset
  | some func =>
    simp only [setShaderStageToModule, hentry, Option.some.injEq] at hset
    subst hset
    have hentry2 := getEntryPoint_setMetadata module func
      (MDNode.mk [Metadata.constantAsMetadata (ConstantInt.get 32 (convertToExecModel stage))])
      hentry
    have hmd2 := getMetadata_setMetadata func gSPIRVMD.ExecutionModel
      (MDNode.mk [Metadata.constantAsMetadata (ConstantInt.get 32 (convertToExecModel stage))])
    simp only [getShaderStageFromModule, hentry2]
    simp only [hmd2]
    simp only [MDNode.getOperand, mdconstDynExtractConstantInt, ConstantInt.getZExtValue,
      ConstantInt.get]
    simp
    have hmod : convertToExecModel stage % 4294967296 = convertToExecModel stage :=
      Nat.mod_eq_of_lt (by simpa using hbound)
    rw [hmod, hinv]

/-- Witness for C3: tagging the sample module with execution model 7 on the
vertex stage and reading it back through an inverse conversion. -/
theorem setThenGet_roundTrip_witness :
    (ShaderStage.vertex ≠ ShaderStage.invalid) ∧
    ((fun _ => ShaderStage.vertex : Nat → ShaderStage)
      ((fun _ => 7 : ShaderStage → Nat) ShaderStage.vertex) = ShaderStage.vertex) ∧
    ((fun _ => 7 : ShaderStage → Nat) ShaderStage.vertex < 2 ^ 32) ∧
    setShaderStageToModule (fun _ => 7) sampleModule ShaderStage.vertex = some sampleModule2 ∧
    getShaderStageFromModule (fun _ => ShaderStage.vertex) sampleModule2 =
      some (ShaderStage.vertex, sampleModule2) :=
  ⟨by decide, rfl, by decide, rfl,
    setThenGet_roundTrip (fun _ => ShaderStage.vertex) (fun _ => 7)
      sampleModule sampleModule2 ShaderStage.vertex (by decide) rfl (by decide) rfl⟩

/-- C7: setShaderStageToModule is idempotent: a second identical call on
the module produced by the first returns that module unchanged, because
the second call overwrites the attachment with an identical record. -/
theorem setShaderStageToModule_idempotent (convertToExecModel : ShaderStage → Nat)
    (module module2 : Module) (stage : ShaderStage)
    (hset : setShaderStageToModule convertToExecModel module stage = some module2) :
    setShaderStageToModule convertToExecModel module2 stage = some module2 := by
  cases hentry : getEntryPoint module with
  | none => simp [setShaderStageToModule, hentry] at hset
  | some func =>
    simp only [setShaderStageToModule, hentry, Option.some.injEq] at hset
    subst hset
    have hentry2 := getEntryPoint_setMetadata module func
      (MDNode.mk [Metadata.constantAsMetadata (ConstantInt.get 32 (convertToExecModel stage))])
      hentry
    simp only [setShaderStageToModule, hentry2, Option.some.injEq, Module.mk.injEq]
    exact updateEntryPoint_updateEntryPoint _
      (fun f => isEntryCandidate_setMetadata f _ _)
      (fun f => setMetadata_setMetadata f _ _) module.functions

/-- Witness for C7: re-tagging the already tagged sample module is a
no-op. -/
theorem setShaderStageToModule_idempotent_witness :
    setShaderStageToModule (fun _ => 7) sampleModule ShaderStage.vertex = some sampleModule2 ∧
    setShaderStageToModule (fun _ => 7) sampleModule2 ShaderStage.vertex = some sampleModule2 :=
  ⟨rfl, setShaderStageToModule_idempotent (fun _ => 7) sampleModule sampleModule2
    ShaderStage.vertex rfl⟩

end Llpc
